import Mathlib

/-!
Verification of the beep-listener decision engine (`beep-listener.js`).

This file gives a shallow embedding of the signal-acquisition-independent
core of the library: pitch estimation, amplitude lookup aggregation,
percentage-gated track validation, the capture result construction, the
parameter validator, and the adaptive gain-calibration search
(`gainDiscover`).  JavaScript numbers are modelled as exact rationals (`ℚ`);
the JavaScript value `undefined`, which appears when an array is indexed out
of bounds, is modelled as `Option ℚ` (`none` = `undefined`), and the
JavaScript comparisons `undefined < x` / `undefined > x`, which are both
false, are modelled by `jsLtOpt` / `jsGtOpt`.  A JavaScript `TypeError`
that escapes a function -- `[].reduce` with no initial value in
`calculaMediaFreqAmp`, or indexing `[1]` on `undefined` in `gainDiscover`
-- is modelled as an explicit thrown marker (`none`, `ValidatedTrack.thrown`,
`CaptureResult.thrown`, `CalibResult.thrown`) that callers propagate.
Asynchronous acquisition is abstracted into explicit inputs: a capture run
is given the list of tracks it buffers before the timeout, and a
calibration run is given a gain→amplitude response oracle plus a fuel
bound standing for the calibration timeout race.
-/

set_option maxHeartbeats 1000000
set_option maxRecDepth 8000

namespace BeepListener

/-- Capture configuration object after the `??=` defaulting in `capture`
(source lines 429-436). -/
structure ConfigObj where
  minFreq : ℚ
  maxFreq : ℚ
  amplitudeValidation : Bool
  minAmplitude : ℚ
  maxAmplitude : ℚ
  validTrackPercentage : ℚ
  trackSize : ℚ
  timeOut : ℚ
deriving DecidableEq

/-- The default capture configuration (source lines 429-436). -/
def captureDefaults : ConfigObj :=
  { minFreq := 2950, maxFreq := 3050, amplitudeValidation := true,
    minAmplitude := -30, maxAmplitude := -20, validTrackPercentage := 70,
    trackSize := 500, timeOut := 10000 }

/-- The in-range test `value >= ConfigObj.minFreq && value <= ConfigObj.maxFreq`
used by `validaPorcentagemAcionamentos`, `trackFilter` and `frequencyTrigger`. -/
def inRangeB (cfg : ConfigObj) (v : ℚ) : Bool :=
  decide (cfg.minFreq ≤ v ∧ v ≤ cfg.maxFreq)

/-- A buffered track: the two parallel arrays produced by `getData`
(frequency readings and their paired amplitudes). -/
structure Track where
  frequencia : List ℚ
  amplitude : List ℚ
deriving DecidableEq

/-- Source `validaPorcentagemAcionamentos` (lines 339-345): the track passes
when the number of in-range readings is at least
`track.length * (validTrackPercentage / 100)`. -/
def validaPorcentagemAcionamentos (track : List ℚ) (cfg : ConfigObj) : Bool :=
  decide ((((track.filter (fun f => inRangeB cfg f)).length : ℚ)) ≥
    (track.length : ℚ) * (cfg.validTrackPercentage / 100))

/-- Helper for `trackFilter`: the source's `filter` callback walks the
frequency array with its index and pushes `track.amplitude[index]` for each
kept frequency.  Out-of-bounds access yields `undefined` in JavaScript; it is
modelled with `getD _ 0` here and never exercised by equal-length tracks
(`getData` always produces equal-length arrays). -/
def trackFilterAmp (cfg : ConfigObj) : List ℚ → List ℚ → ℕ → List ℚ
  | [], _, _ => []
  | v :: rest, ampAll, i =>
    if inRangeB cfg v then ampAll.getD i 0 :: trackFilterAmp cfg rest ampAll (i + 1)
    else trackFilterAmp cfg rest ampAll (i + 1)

/-- Source `trackFilter` (lines 307-317): keeps in-range frequencies and the
amplitude stored at the same index. -/
def trackFilter (track : Track) (cfg : ConfigObj) : Track :=
  { frequencia := track.frequencia.filter (fun v => inRangeB cfg v),
    amplitude := trackFilterAmp cfg track.frequencia track.amplitude 0 }

/-- JavaScript `Math.round`: round half toward positive infinity. -/
def jsRound (q : ℚ) : ℤ := ⌊q + 1 / 2⌋

/-- Result of a non-throwing `calculaMediaFreqAmp` call.  `amplitude` is
`none` when the median index `Math.round(length / 2)` falls outside the
sorted array (JavaScript yields `undefined`). -/
structure Media where
  frequencia : ℚ
  amplitude : Option ℚ
deriving DecidableEq

/-- Source `calculaMediaFreqAmp` (lines 325-330): arithmetic mean of the
frequencies (JavaScript `reduce` folding `+` from the first element) and the
amplitude array sorted ascending, indexed at `Math.round(length / 2)`.
On an empty frequency array `[].reduce` with no initial value throws a
`TypeError`, modelled as `none`; the source evaluates the `frequencia`
property first, so the amplitude median is never computed in that case. -/
def calculaMediaFreqAmp (freqTrack ampTrack : List ℚ) : Option Media :=
  match freqTrack with
  | [] => none
  | a :: rest =>
    some
      { frequencia := (rest.foldl (· + ·) a) / ((a :: rest).length : ℚ),
        amplitude :=
          (List.insertionSort (· ≤ ·) ampTrack).get?
            (jsRound ((ampTrack.length : ℚ) / 2)).toNat }

/-- JavaScript comparison `a < b` where `a` may be `undefined`:
`undefined < b` is false. -/
def jsLtOpt (a : Option ℚ) (b : ℚ) : Bool :=
  match a with
  | none => false
  | some x => decide (x < b)

/-- JavaScript comparison `a > b` where `a` may be `undefined`:
`undefined > b` is false. -/
def jsGtOpt (a : Option ℚ) (b : ℚ) : Bool :=
  match a with
  | none => false
  | some x => decide (x > b)

/-- Result object of `trackValidator`.  On rejection the source returns
`{ result: false }` with no further fields; those fields default here.
`thrown = true` marks the case where the source does not return at all:
the `TypeError` from `calculaMediaFreqAmp` on an empty filtered track
propagates out of `trackValidator`; the remaining fields are meaningless
then, and every caller must check `thrown` before `result`. -/
structure ValidatedTrack where
  result : Bool
  frequencia : List ℚ := []
  frequenciaMedia : Option ℚ := none
  amplitude : List ℚ := []
  amplitudeMedia : Option ℚ := none
  thrown : Bool := false
deriving DecidableEq

/-- Source `trackValidator` (lines 279-299).  Three behaviours of the
source are preserved exactly: (1) the rejection test on line 288 is
`(amplitudeValidation && media.amplitude < minAmplitude) || media.amplitude > maxAmplitude`
-- `&&` binds tighter than `||` in JavaScript, so the `> maxAmplitude` arm
runs even when `amplitudeValidation` is false; (2) `Array.prototype.sort`
inside `calculaMediaFreqAmp` sorts the filtered amplitude array in place, so
the accepted result carries the sorted array, not the acquisition-ordered
one; (3) when the filtered track is empty (the percentage gate passes
vacuously, e.g. `validTrackPercentage = 0` with no in-range readings) the
`TypeError` from `calculaMediaFreqAmp` propagates -- marked `thrown`. -/
def trackValidator (track : Track) (cfg : ConfigObj) : ValidatedTrack :=
  if ¬ validaPorcentagemAcionamentos track.frequencia cfg then { result := false }
  else
    let filteredTrack := trackFilter track cfg
    match calculaMediaFreqAmp filteredTrack.frequencia filteredTrack.amplitude with
    | none => { result := false, thrown := true }
    | some media =>
      if (cfg.amplitudeValidation && jsLtOpt media.amplitude cfg.minAmplitude)
          || jsGtOpt media.amplitude cfg.maxAmplitude then { result := false }
      else
        { result := true,
          frequencia := filteredTrack.frequencia,
          frequenciaMedia := some media.frequencia,
          amplitude := List.insertionSort (· ≤ ·) filteredTrack.amplitude,
          amplitudeMedia := media.amplitude }

/-- Source `pitch`, inner autocorrelation (lines 176-180):
`corr[l] = Σ_{i < fftSize - l} x[i] * x[i + l]` where `fftSize` is the frame
length. -/
def corrolatedSignal (x : List ℚ) (l : ℕ) : ℚ :=
  ((List.range (x.length - l)).map (fun i => x.getD i 0 * x.getD (i + l) 0)).sum

/-- Source `pitch`, maxima collection (lines 181-189): for `l > 1`, record
lag `l - 1` when `corr[l-2] - corr[l-1] < 0` and `corr[l-1] - corr[l] > 0`;
stop once 10 lags are collected (taking the first 10 candidates in
increasing order is exactly the source's early `break`). -/
def localMaxima (x : List ℚ) : List ℕ :=
  (((List.range x.length).filter (fun l =>
      decide (2 ≤ l ∧
        corrolatedSignal x (l - 2) - corrolatedSignal x (l - 1) < 0 ∧
        corrolatedSignal x (l - 1) - corrolatedSignal x l > 0))).map
    (fun l => l - 1)).take 10

/-- Sum of consecutive differences, mirroring the source loop
`for i in 1..count-1: maximaMean += localMaxima[i] - localMaxima[i-1]`. -/
def sumDiffs : List ℚ → ℚ
  | [] => 0
  | [_] => 0
  | a :: b :: rest => (b - a) + sumDiffs (b :: rest)

/-- Source `pitch` (lines 171-200).  With no collected maxima the source
computes `undefined / 0 = NaN` and returns `sampleRate / NaN = NaN`,
modelled as `none`; otherwise it returns
`sampleRate / ((localMaxima[0] + Σ diffs) / maximaCount)`. -/
def pitch (sampleRate : ℚ) (timeDomainArray : List ℚ) : Option ℚ :=
  match localMaxima timeDomainArray with
  | [] => none
  | a :: rest =>
    some (sampleRate /
      (((a : ℚ) + sumDiffs ((a :: rest).map (fun n : ℕ => (n : ℚ)))) /
        ((a :: rest).length : ℚ)))

/-- A JavaScript value as seen by `ParameterValidator`: a number, a string,
a boolean, or `undefined`. -/
inductive JsVal where
  | num (q : ℚ)
  | str (s : String)
  | bool (b : Bool)
  | undefinedVal
deriving DecidableEq

/-- The parameter names configured in `parameterCheckConfigs` (lines
690-848), plus `calibrationTimeOut`, which `calibrateMic` defaults on its
options object but which has no entry in `parameterCheckConfigs`. -/
inductive ParamName where
  | sampleRate
  | fftSize
  | smoothingTimeConstant
  | gain
  | deviceId
  | minFreq
  | maxFreq
  | amplitudeValidation
  | minAmplitude
  | maxAmplitude
  | validTrackPercentage
  | trackSize
  | timeOut
  | firstReadTimeOut
  | calibrationTimeOut
deriving DecidableEq

/-- The JavaScript property name of each parameter, used in the
"não está configurado" message. -/
def paramNameString : ParamName → String
  | .sampleRate => "sampleRate"
  | .fftSize => "fftSize"
  | .smoothingTimeConstant => "smoothingTimeConstant"
  | .gain => "gain"
  | .deviceId => "deviceId"
  | .minFreq => "minFreq"
  | .maxFreq => "maxFreq"
  | .amplitudeValidation => "amplitudeValidation"
  | .minAmplitude => "minAmplitude"
  | .maxAmplitude => "maxAmplitude"
  | .validTrackPercentage => "validTrackPercentage"
  | .trackSize => "trackSize"
  | .timeOut => "timeOut"
  | .firstReadTimeOut => "firstReadTimeOut"
  | .calibrationTimeOut => "calibrationTimeOut"

/-- Membership test `parameter in parameterCheckConfigs`:
every name except `calibrationTimeOut` has an entry. -/
def configuredParam : ParamName → Bool
  | .calibrationTimeOut => false
  | _ => true

namespace ParameterValidator

/-- JavaScript `typeof value == "number"`. -/
def isNumV : JsVal → Bool
  | .num _ => true
  | _ => false

/-- JavaScript `typeof value == "boolean"`. -/
def isBoolV : JsVal → Bool
  | .bool _ => true
  | _ => false

/-- JavaScript `typeof value == "string" || value == undefined`. -/
def isStrOrUndefV : JsVal → Bool
  | .str _ => true
  | .undefinedVal => true
  | _ => false

/-- JavaScript `value >= bound` on a possibly non-numeric value:
comparisons involving `undefined` are false; the validator only reaches the
numeric comparisons after the type checks, so the non-number arms are never
exercised with a boolean or string. -/
def jsGeNum (v : JsVal) (bound : ℚ) : Bool :=
  match v with
  | .num x => decide (x ≥ bound)
  | _ => false

/-- JavaScript `value <= bound`, as in `jsGeNum`. -/
def jsLeNum (v : JsVal) (bound : ℚ) : Bool :=
  match v with
  | .num x => decide (x ≤ bound)
  | _ => false

/-- JavaScript `value > bound`, as in `jsGeNum`. -/
def jsGtNum (v : JsVal) (bound : ℚ) : Bool :=
  match v with
  | .num x => decide (x > bound)
  | _ => false

/-- JavaScript `a <= b` on two stored values, used by the range checks. -/
def jsLeVals (a b : JsVal) : Bool :=
  match a, b with
  | .num x, .num y => decide (x ≤ y)
  | _, _ => false

/-- Models `Number.isInteger(Math.log(value) / Math.log(2))` for the
`fftSize` value check: the value is a positive integral power of two.  (The
source computes this with floating-point logarithms; on the checked range
32..32768 the two agree.) -/
def isPowerOfTwoVal (v : JsVal) : Bool :=
  match v with
  | .num x => decide (0 < x.num) && decide (x.den = 1) && decide ((2 : ℤ) ^ Nat.log2 x.num.toNat = x.num)
  | _ => false

/-- The three validation passes, run in this order over all parameters
(line 862). -/
inductive CheckKind where
  | typeCheck
  | valueCheck
  | rangeCheck
deriving DecidableEq

/-- The `value` slots of `parameterCheckConfigs` after the first loop of
`validate` stored every passed parameter: lookup of the last write, `undefinedVal`
when the parameter was not in the call's object. -/
def storedValue (params : List (ParamName × JsVal)) (k : ParamName) : JsVal :=
  match (params.filter (fun kv => kv.1 = k)).getLast? with
  | some kv => kv.2
  | none => .undefinedVal

/-- The check of the given kind configured for the given parameter in
`parameterCheckConfigs`: its boolean outcome on the stored values and its
failure message, or `none` when that parameter has no check of that kind. -/
def runCheck (kind : CheckKind) (p : ParamName) (env : ParamName → JsVal) :
    Option (Bool × String) :=
  match kind, p with
  | .typeCheck, .sampleRate => some (isNumV (env .sampleRate), "sampleRate deve ser um número")
  | .typeCheck, .fftSize => some (isNumV (env .fftSize), "fftSize deve ser um número")
  | .typeCheck, .smoothingTimeConstant =>
    some (isNumV (env .smoothingTimeConstant), "smoothingTimeConstant deve ser um número")
  | .typeCheck, .gain => some (isNumV (env .gain), "gain deve ser um número")
  | .typeCheck, .deviceId =>
    some (isStrOrUndefV (env .deviceId), "deviceId deve ser uma string ou undefined")
  | .typeCheck, .minFreq => some (isNumV (env .minFreq), "minFreq deve ser um número")
  | .typeCheck, .maxFreq => some (isNumV (env .maxFreq), "maxFreq deve ser um número")
  | .typeCheck, .amplitudeValidation =>
    some (isBoolV (env .amplitudeValidation), "amplitudeValidation deve ser um booleano")
  | .typeCheck, .minAmplitude => some (isNumV (env .minAmplitude), "minAmplitude deve ser um número")
  | .typeCheck, .maxAmplitude => some (isNumV (env .maxAmplitude), "maxAmplitude deve ser um número")
  | .typeCheck, .validTrackPercentage =>
    some (isNumV (env .validTrackPercentage), "validTrackPercentage deve ser um número")
  | .typeCheck, .trackSize => some (isNumV (env .trackSize), "trackSize deve ser um número")
  | .typeCheck, .timeOut => some (isNumV (env .timeOut), "timeOut deve ser um número")
  | .typeCheck, .firstReadTimeOut =>
    some (isNumV (env .firstReadTimeOut), "firstReadTimeOut deve ser um número")
  | .valueCheck, .sampleRate =>
    some (jsGeNum (env .sampleRate) 8000 && jsLeNum (env .sampleRate) 96000,
      "sampleRate deve estar entre 8000 e 96000")
  | .valueCheck, .fftSize =>
    some (jsGeNum (env .fftSize) 32 && jsLeNum (env .fftSize) 32768 && isPowerOfTwoVal (env .fftSize),
      "fftSize deve estar entre 32 e 32768 e deve ser uma potência de 2")
  | .valueCheck, .smoothingTimeConstant =>
    some (jsGeNum (env .smoothingTimeConstant) 0 && jsLeNum (env .smoothingTimeConstant) 1,
      "smoothingTimeConstant deve estar entre 0 e 1")
  | .valueCheck, .minFreq => some (jsGtNum (env .minFreq) 0, "minFreq deve ser maior que 0")
  | .valueCheck, .maxFreq => some (jsGtNum (env .maxFreq) 0, "maxFreq deve ser maior que 0")
  | .valueCheck, .validTrackPercentage =>
    some (jsGeNum (env .validTrackPercentage) 0 && jsLeNum (env .validTrackPercentage) 100,
      "validTrackPercentage deve estar entre 0 e 100")
  | .valueCheck, .trackSize => some (jsGtNum (env .trackSize) 0, "trackSize deve ser maior que 0")
  | .rangeCheck, .minFreq =>
    some (jsLeVals (env .minFreq) (env .maxFreq), "minFreq deve ser menor ou igual a maxFreq")
  | .rangeCheck, .minAmplitude =>
    some (jsLeVals (env .minAmplitude) (env .maxAmplitude),
      "minAmplitude deve ser menor ou igual a maxAmplitude")
  | _, _ => none

/-- Result of `ParameterValidator.validate`: `{ success: true }` or
`{ success: false, message }`. -/
inductive VResult where
  | ok
  | fail (message : String)
deriving DecidableEq

/-- Source `ParameterValidator.validate` (lines 853-879).  First loop: fail
on the first parameter with no entry in `parameterCheckConfigs`, otherwise
store every value.  Then for each of `typeCheck`, `valueCheck`,
`rangeCheck` in order, for each parameter in call order, run the configured
check and fail with its message on the first false condition. -/
def validate (params : List (ParamName × JsVal)) : VResult :=
  match params.find? (fun kv => !configuredParam kv.1) with
  | some kv =>
    .fail ("Parâmetro " ++ paramNameString kv.1 ++
      " não está configurado no objeto parameterCheckConfigs")
  | none =>
    match ([CheckKind.typeCheck, CheckKind.valueCheck, CheckKind.rangeCheck].findSome?
        (fun kind => params.findSome? (fun kv =>
          match runCheck kind kv.1 (storedValue params) with
          | some (ok, msg) => if ok then none else some msg
          | none => none))) with
    | some msg => .fail msg
    | none => .ok

end ParameterValidator

/-- The parameter object `capture` passes to `ParameterValidator.validate`,
with keys in the order the `??=` defaulting establishes (lines 429-436). -/
def captureParams (cfg : ConfigObj) : List (ParamName × JsVal) :=
  [(.minFreq, .num cfg.minFreq),
   (.maxFreq, .num cfg.maxFreq),
   (.amplitudeValidation, .bool cfg.amplitudeValidation),
   (.minAmplitude, .num cfg.minAmplitude),
   (.maxAmplitude, .num cfg.maxAmplitude),
   (.validTrackPercentage, .num cfg.validTrackPercentage),
   (.trackSize, .num cfg.trackSize),
   (.timeOut, .num cfg.timeOut)]

/-- Result of a `capture` call: the success object carries the filtered
values and their aggregates (lines 463-474); every failure object carries
only the flag and a message (lines 439, 454, 458); `thrown` marks the
`TypeError` from a validated-but-empty filtered track rejecting the
`capture` promise instead of returning a result. -/
inductive CaptureResult where
  | success (msg : String) (freqValues : List ℚ) (freqMedia : Option ℚ)
      (ampValues : List ℚ) (ampMedia : Option ℚ)
  | failure (msg : String)
  | thrown
deriving DecidableEq

/-- Whether a capture result carries the frequency/amplitude values and
their aggregates. -/
def hasFreqAmpMeans : CaptureResult → Bool
  | .success _ _ _ _ _ => true
  | .failure _ => false
  | .thrown => false

/-- Outcome of the `trackCapture` loop: a validated track was accepted, or
the loop was still spinning when the timeout fired, or a `TypeError`
propagated out of `trackValidator`. -/
inductive CaptureLoopOut where
  | accepted (v : ValidatedTrack)
  | timeout
  | thrown
deriving DecidableEq

/-- Source `trackCapture` loop (lines 351-362), with acquisition abstracted:
the list holds the tracks buffered after successive triggers, in order.
The first track the validator accepts is returned; an exception inside
`trackValidator` (its `thrown` flag) propagates; `timeout` models the loop
still spinning when the timeout fires. -/
def trackCaptureList (cfg : ConfigObj) : List Track → CaptureLoopOut
  | [] => .timeout
  | t :: rest =>
    let v := trackValidator t cfg
    if v.thrown then .thrown
    else if v.result then .accepted v
    else trackCaptureList cfg rest

/-- Source `capture` (lines 428-476), abstracted over the tracks buffered
before the timeout.  The `EncontrouTrackFrequencia` static, false at the
start of a run and set by `trackValidator` whenever the percentage gate
passes, is `tracks.any (validaPorcentagemAcionamentos ·)` on the timeout
path, where every buffered track has been through the validator.  An
exception from `trackValidator` rejects `trackCapture`'s promise, the
raced `await` rethrows, and `capture`'s own promise rejects: `.thrown`. -/
def capture (cfg : ConfigObj) (tracks : List Track) : CaptureResult :=
  match ParameterValidator.validate (captureParams cfg) with
  | .fail msg => .failure msg
  | .ok =>
    match trackCaptureList cfg tracks with
    | .accepted v =>
      .success "Faixa detectada dentro dos valores esperados"
        v.frequencia v.frequenciaMedia v.amplitude v.amplitudeMedia
    | .thrown => .thrown
    | .timeout =>
      if tracks.any (fun t => validaPorcentagemAcionamentos t.frequencia cfg) then
        .failure "Foi detectada uma faixa na frequência esperada, mas fora da amplitude desejada"
      else
        .failure "Nenhuma faixa detectada na frequência esperada"

/-- Calibration options after the `??=` defaulting in `calibrateMic`
(lines 504-511). -/
structure CalibrationOptions where
  minAmplitude : ℚ
  maxAmplitude : ℚ
  validTrackPercentage : ℚ
  minFreq : ℚ
  maxFreq : ℚ
  trackSize : ℚ
  firstReadTimeOut : ℚ
  calibrationTimeOut : ℚ
deriving DecidableEq

/-- The default calibration options (lines 504-511). -/
def calibrationDefaults : CalibrationOptions :=
  { minAmplitude := -30, maxAmplitude := -20, validTrackPercentage := 70,
    minFreq := 3050, maxFreq := 3250, trackSize := 300,
    firstReadTimeOut := 5000, calibrationTimeOut := 10000 }

/-- The parameter object `calibrateMic` passes to
`ParameterValidator.validate`, keys in `??=` order (lines 504-511): the
`calibrationTimeOut` key is always present because `calibrateMic` always
defaults it. -/
def calibrationParams (o : CalibrationOptions) : List (ParamName × JsVal) :=
  [(.minAmplitude, .num o.minAmplitude),
   (.maxAmplitude, .num o.maxAmplitude),
   (.validTrackPercentage, .num o.validTrackPercentage),
   (.minFreq, .num o.minFreq),
   (.maxFreq, .num o.maxFreq),
   (.trackSize, .num o.trackSize),
   (.firstReadTimeOut, .num o.firstReadTimeOut),
   (.calibrationTimeOut, .num o.calibrationTimeOut)]

/-- Outcome of `calibrateMic` / `gainDiscover`: a success object carrying
the gain, a failure object carrying a message, or `thrown` -- a JavaScript
`TypeError` escaping (indexing `[1]` on the `undefined` produced by reading
`amplitudeSamples[0]` of an empty array or by a failed `findLast`). -/
inductive CalibResult where
  | ok (gain : ℚ)
  | failure (msg : String)
  | thrown
deriving DecidableEq

/-- The loop condition of `gainDiscover` (lines 559-564): after the
direction flip, `condition()` is `amp < central - tol` when stepping down
(initial amplitude above the target) and `amp > central + tol` when
stepping up. -/
def condProp (down : Bool) (central tol a : ℚ) : Prop :=
  if down then a < central - tol else a > central + tol

instance condPropDecidable (down : Bool) (central tol a : ℚ) :
    Decidable (condProp down central tol a) := by
  unfold condProp
  exact inferInstanceAs (Decidable (if down then _ else _))

/-- Exit status of the `while` loop of `gainDiscover` (lines 566-581). -/
inductive LoopOut where
  | success (gain : ℚ)
  | exited (samples : List (ℚ × ℚ)) (gain : ℚ) (currentAmplitude : ℚ)
  | fuelOut
deriving DecidableEq

/-- The `while (!condition() && gain > 0)` loop of `gainDiscover` (lines
566-581).  `read` is the gain→amplitude response of the
trigger+buffer+validate pipeline (`configDeterminator`), `gain` is the
shared `GainNode.gain.value`, and each iteration reads at the current gain,
returns it on an in-tolerance amplitude, otherwise records
`(gain, amplitude)` and applies the step.  Fuel exhaustion models the
calibration timeout firing mid-loop. -/
def gdLoop (read : ℚ → ℚ) (central tol : ℚ) (down : Bool) (step : ℚ) :
    ℕ → ℚ → ℚ → List (ℚ × ℚ) → LoopOut
  | 0, currentAmp, gain, samples =>
    if condProp down central tol currentAmp ∨ gain ≤ 0 then .exited samples gain currentAmp
    else .fuelOut
  | fuel + 1, currentAmp, gain, samples =>
    if condProp down central tol currentAmp ∨ gain ≤ 0 then .exited samples gain currentAmp
    else
      if |read gain - central| ≤ tol then .success gain
      else gdLoop read central tol down step fuel (read gain) (gain + step)
        (samples ++ [(gain, read gain)])

/-- Source `gainDiscover` (lines 553-597).  Entry sets the shared gain to
`initialGain`, flips the step when the current amplitude is above the
target, runs the stepping loop, then: reverses the samples when the last
amplitude is above the target; when more than one sample was recorded and
the gain is still positive, selects with `findLast` the last recorded
sample whose amplitude undershoots the tolerance band (`find?` on the
reversed list); recurses from the selected anchor with half the step
magnitude.  A failed `findLast` or an empty sample list makes the source
evaluate `undefined[1]`, modelled as `.thrown`.  Running out of fuel models
the `calibrationTimeOut` race (line 532). -/
def gainDiscover (read : ℚ → ℚ) (central tol : ℚ) :
    ℕ → ℚ → ℚ → ℚ → CalibResult
  | 0, _, _, _ => .failure "Tempo de calibração do microfone foi excedido"
  | fuel + 1, currentAmplitude, initialGain, gainStep =>
    let down : Bool := decide (currentAmplitude > central)
    let step := if down then gainStep * (-1) else gainStep
    match gdLoop read central tol down step (fuel + 1) currentAmplitude initialGain [] with
    | .success g => .ok g
    | .fuelOut => .failure "Tempo de calibração do microfone foi excedido"
    | .exited samples gain lastAmp =>
      let samples2 := if lastAmp > central then samples.reverse else samples
      let anchor? : Option (ℚ × ℚ) :=
        if samples2.length > 1 ∧ gain > 0 then
          samples2.reverse.find? (fun s => decide (s.2 < central - tol))
        else samples2.head?
      match anchor? with
      | none => .thrown
      | some anchor => gainDiscover read central tol fuel anchor.2 anchor.1 |step / 2|

/-- Source `calibrateMic` (lines 503-534): default the options, validate
them, take a first reading (`none` models the `firstReadTimeOut` race
resolving to `false`), return the unchanged gain when the first amplitude is
already within tolerance of `(minAmplitude + maxAmplitude) / 2`, otherwise
run `gainDiscover`.  `gainValue` is the current `GainNode.gain.value`. -/
def calibrateMic (o : CalibrationOptions) (read : ℚ → ℚ) (firstRead : Option ℚ)
    (gainValue : ℚ) (fuel : ℕ) (amplitudeTolerance gainStep : ℚ) : CalibResult :=
  match ParameterValidator.validate (calibrationParams o) with
  | .fail msg => .failure msg
  | .ok =>
    match firstRead with
    | none => .failure "Nenhuma faixa detectada na frequência esperada"
    | some currentAmplitude =>
      let centralAmplitude := (o.minAmplitude + o.maxAmplitude) / 2
      if |currentAmplitude - centralAmplitude| ≤ amplitudeTolerance then .ok gainValue
      else gainDiscover read centralAmplitude amplitudeTolerance fuel
        currentAmplitude gainValue gainStep

/-- A constant gain→amplitude response, used for concrete runs. -/
def constRead (q : ℚ) : ℚ → ℚ := fun _ => q

/-- A 100-reading track with exactly 70 readings inside the default
frequency band. -/
def track100with70 : List ℚ := List.replicate 70 3000 ++ List.replicate 30 0

/-- A 100-reading track with exactly 69 readings inside the default
frequency band. -/
def track100with69 : List ℚ := List.replicate 69 3000 ++ List.replicate 31 0

/-- The default capture configuration with amplitude validation turned
off. -/
def cfgNoAmpValidation : ConfigObj :=
  { captureDefaults with amplitudeValidation := false }

/-- The default capture configuration with a zero percentage gate. -/
def cfgZeroPercentage : ConfigObj :=
  { captureDefaults with validTrackPercentage := 0 }

/-! ### Helper lemmas -/

lemma foldl_add_eq_add_sum (l : List ℚ) : ∀ a : ℚ, l.foldl (· + ·) a = a + l.sum := by
  induction l with
  | nil => intro a; simp
  | cons b t ih =>
    intro a
    simp only [List.foldl_cons, List.sum_cons, ih (a + b)]
    ring

lemma jsRound_natCast_half (n : ℕ) : (jsRound ((n : ℚ) / 2)).toNat = (n + 1) / 2 := by
  unfold jsRound
  have h : ((n : ℚ) / 2 + 1 / 2) = ((n + 1 : ℕ) : ℚ) / 2 := by push_cast; ring
  rw [h]
  rcases Nat.even_or_odd (n + 1) with he | ho
  · obtain ⟨k, hk⟩ := he
    have h2 : (((n + 1 : ℕ) : ℚ) / 2) = ((k : ℕ) : ℚ) := by rw [hk]; push_cast; ring
    rw [h2, Int.floor_natCast]
    omega
  · obtain ⟨k, hk⟩ := ho
    have h2 : (((n + 1 : ℕ) : ℚ) / 2) = ((k : ℕ) : ℚ) + 1 / 2 := by rw [hk]; push_cast; ring
    have h3 : ⌊((k : ℕ) : ℚ) + 1 / 2⌋ = (k : ℤ) := by
      rw [Int.floor_eq_iff]
      constructor
      · push_cast; linarith
      · push_cast; linarith
    rw [h2, h3]
    omega

lemma headI_add_sumDiffs (l : List ℚ) : ∀ h : l ≠ [], l.headI + sumDiffs l = l.getLast h := by
  induction l with
  | nil => intro h; simp at h
  | cons a t ih =>
    intro h
    cases t with
    | nil => simp [sumDiffs]
    | cons b t2 =>
      have hb : (b :: t2) ≠ [] := by simp
      have h2 := ih hb
      simp only [List.headI] at h2
      rw [List.getLast_cons hb] at *
      simp only [List.headI, sumDiffs]
      linarith

lemma trackFilterAmp_length (cfg : ConfigObj) :
    ∀ (freq ampAll : List ℚ) (i : ℕ),
      (trackFilterAmp cfg freq ampAll i).length =
        (freq.filter (fun v => inRangeB cfg v)).length := by
  intro freq
  induction freq with
  | nil => intro ampAll i; simp [trackFilterAmp]
  | cons v rest ih =>
    intro ampAll i
    by_cases hv : inRangeB cfg v
    · simp [trackFilterAmp, hv, List.filter_cons, ih]
    · simp [trackFilterAmp, hv, List.filter_cons, ih]

lemma calculaMediaFreqAmp_some (freq amp : List ℚ) (h : freq ≠ []) :
    ∃ m, calculaMediaFreqAmp freq amp = some m ∧
      m.frequencia = freq.sum / (freq.length : ℚ) ∧
      m.amplitude = (List.insertionSort (· ≤ ·) amp).get? ((amp.length + 1) / 2) := by
  cases freq with
  | nil => exact absurd rfl h
  | cons a rest =>
    refine ⟨_, rfl, ?_, ?_⟩
    · simp only [foldl_add_eq_add_sum, List.sum_cons]
    · simp only [jsRound_natCast_half]

lemma calculaMediaFreqAmp_none_iff (freq amp : List ℚ) :
    calculaMediaFreqAmp freq amp = none ↔ freq = [] := by
  cases freq with
  | nil => simp [calculaMediaFreqAmp]
  | cons a rest => simp [calculaMediaFreqAmp]

lemma filter_eq_zip_filter_map_fst (cfg : ConfigObj) :
    ∀ (freq amp : List ℚ), freq.length = amp.length →
      freq.filter (fun v => inRangeB cfg v) =
        ((freq.zip amp).filter (fun p => inRangeB cfg p.1)).map Prod.fst := by
  intro freq
  induction freq with
  | nil => intro amp _; simp
  | cons v fr ih =>
    intro amp h
    cases amp with
    | nil => simp at h
    | cons a ar =>
      have h2 : fr.length = ar.length := by simpa using h
      by_cases hv : inRangeB cfg v
      · simp [List.filter_cons, List.zip_cons_cons, hv, ih ar h2]
      · simp [List.filter_cons, List.zip_cons_cons, hv, ih ar h2]

lemma trackFilterAmp_eq_zip (cfg : ConfigObj) :
    ∀ (freq ampRest ampAll : List ℚ) (i : ℕ), ampAll.drop i = ampRest →
      freq.length = ampRest.length →
      trackFilterAmp cfg freq ampAll i =
        ((freq.zip ampRest).filter (fun p => inRangeB cfg p.1)).map Prod.snd := by
  intro freq
  induction freq with
  | nil => intro ampRest ampAll i _ _; simp [trackFilterAmp]
  | cons v fr ih =>
    intro ampRest ampAll i hdrop h
    cases ampRest with
    | nil => simp at h
    | cons a ar =>
      have h2 : fr.length = ar.length := by simpa using h
      have hget : ampAll[i]?.getD 0 = a := by
        have h0 : ampAll[i]? = some a := by
          have h1 := List.getElem?_drop ampAll i 0
          rw [hdrop] at h1
          simpa using h1.symm
        simp [h0]
      have hdrop2 : ampAll.drop (i + 1) = ar := by
        have h1 : (ampAll.drop i).drop 1 = ampAll.drop (i + 1) := List.drop_drop 1 i ampAll
        rw [hdrop] at h1
        simpa using h1.symm
      by_cases hv : inRangeB cfg v
      · simp [trackFilterAmp, hv, hget, List.zip_cons_cons, List.filter_cons,
          ih ar ampAll (i + 1) hdrop2 h2]
      · simp [trackFilterAmp, hv, List.zip_cons_cons, List.filter_cons,
          ih ar ampAll (i + 1) hdrop2 h2]

lemma localMaxima_one_zero_one : localMaxima [1, 0, 1, 0, 0] = [2] := by
  have c0 : corrolatedSignal [1, 0, 1, 0, 0] 0 = 2 := by
    simp [corrolatedSignal, List.range_succ]
    norm_num
  have c1 : corrolatedSignal [1, 0, 1, 0, 0] 1 = 0 := by
    simp [corrolatedSignal, List.range_succ]
  have c2 : corrolatedSignal [1, 0, 1, 0, 0] 2 = 1 := by
    simp [corrolatedSignal, List.range_succ]
  have c3 : corrolatedSignal [1, 0, 1, 0, 0] 3 = 0 := by
    simp [corrolatedSignal, List.range_succ]
  have c4 : corrolatedSignal [1, 0, 1, 0, 0] 4 = 0 := by
    simp [corrolatedSignal, List.range_succ]
  simp [localMaxima, List.range_succ, List.filter_append, List.filter_cons, c0, c1, c2, c3, c4]

lemma calibrateMic_always_fails (o : CalibrationOptions) (read : ℚ → ℚ)
    (firstRead : Option ℚ) (gainValue : ℚ) (fuel : ℕ) (tol step : ℚ) :
    calibrateMic o read firstRead gainValue fuel tol step =
      .failure "Parâmetro calibrationTimeOut não está configurado no objeto parameterCheckConfigs" :=
  rfl

lemma mem_of_dropLast_getLast {α : Type} {P : α → Prop} (l : List α)
    (h1 : ∀ s ∈ l.dropLast, P s) (h2 : ∀ sl, l.getLast? = some sl → P sl) :
    ∀ s ∈ l, P s := by
  intro s hs
  by_cases hl : l = []
  · rw [hl] at hs; simp at hs
  · have hsplit := List.dropLast_append_getLast hl
    rw [← hsplit] at hs
    rcases List.mem_append.mp hs with h | h
    · exact h1 s h
    · rw [List.mem_singleton] at h
      rw [h]
      exact h2 _ (List.getLast?_eq_getLast l hl)

lemma gdLoop_success_pos (read : ℚ → ℚ) (central tol : ℚ) (down : Bool) (step : ℚ) :
    ∀ (fuel : ℕ) (amp gain : ℚ) (samples : List (ℚ × ℚ)) (g : ℚ),
      gdLoop read central tol down step fuel amp gain samples = .success g → 0 < g := by
  intro fuel
  induction fuel with
  | zero =>
    intro amp gain samples g h
    simp only [gdLoop] at h
    split at h <;> simp at h
  | succ n ih =>
    intro amp gain samples g h
    simp only [gdLoop] at h
    split at h
    · simp at h
    · next hguard =>
      split at h
      · simp only [LoopOut.success.injEq] at h
        rw [← h]
        push_neg at hguard
        exact hguard.2
      · exact ih (read gain) (gain + step) (samples ++ [(gain, read gain)]) g h

lemma gdLoop_exited_samples_pos (read : ℚ → ℚ) (central tol : ℚ) (down : Bool) (step : ℚ) :
    ∀ (fuel : ℕ) (amp gain : ℚ) (samples s' : List (ℚ × ℚ)) (g' a' : ℚ),
      gdLoop read central tol down step fuel amp gain samples = .exited s' g' a' →
      (∀ s ∈ samples, 0 < s.1) → ∀ s ∈ s', 0 < s.1 := by
  intro fuel
  induction fuel with
  | zero =>
    intro amp gain samples s' g' a' h hs
    simp only [gdLoop] at h
    split at h
    · simp only [LoopOut.exited.injEq] at h
      rw [← h.1]
      exact hs
    · simp at h
  | succ n ih =>
    intro amp gain samples s' g' a' h hs
    simp only [gdLoop] at h
    split at h
    · simp only [LoopOut.exited.injEq] at h
      rw [← h.1]
      exact hs
    · next hguard =>
      split at h
      · simp at h
      · refine ih (read gain) (gain + step) (samples ++ [(gain, read gain)]) s' g' a' h ?_
        intro s hmem
        rcases List.mem_append.mp hmem with hm | hm
        · exact hs s hm
        · rw [List.mem_singleton] at hm
          rw [hm]
          push_neg at hguard
          exact hguard.2

lemma gdLoop_exited_inv (read : ℚ → ℚ) (central tol : ℚ) (down : Bool) (step : ℚ) :
    ∀ (fuel : ℕ) (amp gain : ℚ) (samples s' : List (ℚ × ℚ)) (g' a' : ℚ),
      gdLoop read central tol down step fuel amp gain samples = .exited s' g' a' →
      (∀ s ∈ samples, ¬(|s.2 - central| ≤ tol)) →
      (∀ s ∈ samples.dropLast, ¬ condProp down central tol s.2) →
      (∀ sl, samples.getLast? = some sl → sl.2 = amp) →
      (∀ s ∈ s', ¬(|s.2 - central| ≤ tol)) ∧
      (∀ s ∈ s'.dropLast, ¬ condProp down central tol s.2) ∧
      (∀ sl, s'.getLast? = some sl → sl.2 = a') ∧
      (condProp down central tol a' ∨ g' ≤ 0) := by
  intro fuel
  induction fuel with
  | zero =>
    intro amp gain samples s' g' a' h h1 h2 h3
    simp only [gdLoop] at h
    split at h
    · next hguard =>
      simp only [LoopOut.exited.injEq] at h
      obtain ⟨hs, hg, ha⟩ := h
      subst hs
      subst hg
      subst ha
      exact ⟨h1, h2, h3, hguard⟩
    · simp at h
  | succ n ih =>
    intro amp gain samples s' g' a' h h1 h2 h3
    simp only [gdLoop] at h
    split at h
    · next hguard =>
      simp only [LoopOut.exited.injEq] at h
      obtain ⟨hs, hg, ha⟩ := h
      subst hs
      subst hg
      subst ha
      exact ⟨h1, h2, h3, hguard⟩
    · next hguard =>
      split at h
      · simp at h
      · next htol =>
        refine ih (read gain) (gain + step) (samples ++ [(gain, read gain)]) s' g' a' h
          ?_ ?_ ?_
        · intro s hmem
          rcases List.mem_append.mp hmem with hm | hm
          · exact h1 s hm
          · rw [List.mem_singleton] at hm
            rw [hm]
            exact htol
        · rw [List.dropLast_concat]
          refine mem_of_dropLast_getLast samples h2 ?_
          intro sl hsl
          rw [h3 sl hsl]
          intro hc
          exact hguard (Or.inl hc)
        · intro sl hsl
          rw [List.getLast?_concat] at hsl
          rw [← Option.some.inj hsl]

lemma gdLoop_exited_length (read : ℚ → ℚ) (central tol : ℚ) (down : Bool) (step : ℚ) :
    ∀ (fuel : ℕ) (amp gain : ℚ) (samples s' : List (ℚ × ℚ)) (g' a' : ℚ),
      gdLoop read central tol down step fuel amp gain samples = .exited s' g' a' →
      samples.length ≤ s'.length := by
  intro fuel
  induction fuel with
  | zero =>
    intro amp gain samples s' g' a' h
    simp only [gdLoop] at h
    split at h
    · simp only [LoopOut.exited.injEq] at h
      rw [h.1]
    · simp at h
  | succ n ih =>
    intro amp gain samples s' g' a' h
    simp only [gdLoop] at h
    split at h
    · simp only [LoopOut.exited.injEq] at h
      rw [h.1]
    · split at h
      · simp at h
      · have := ih (read gain) (gain + step) (samples ++ [(gain, read gain)]) s' g' a' h
        simp only [List.length_append, List.length_cons, List.length_nil] at this
        omega

lemma gdLoop_exited_progress (read : ℚ → ℚ) (central tol : ℚ) (down : Bool) (step : ℚ)
    (fuel : ℕ) (amp gain : ℚ) (samples s' : List (ℚ × ℚ)) (g' a' : ℚ)
    (hguard : ¬(condProp down central tol amp ∨ gain ≤ 0))
    (h : gdLoop read central tol down step fuel amp gain samples = .exited s' g' a') :
    samples.length < s'.length := by
  cases fuel with
  | zero =>
    simp only [gdLoop] at h
    rw [if_neg hguard] at h
    simp at h
  | succ n =>
    simp only [gdLoop] at h
    rw [if_neg hguard] at h
    split at h
    · simp at h
    · have := gdLoop_exited_length read central tol down step n (read gain) (gain + step)
        (samples ++ [(gain, read gain)]) s' g' a' h
      simp only [List.length_append, List.length_cons, List.length_nil] at this
      omega

lemma entry_guard_false (central tol amp : ℚ) (htol : 0 ≤ tol) :
    ¬ condProp (decide (amp > central)) central tol amp := by
  unfold condProp
  by_cases hd : amp > central
  · rw [decide_eq_true hd, if_pos rfl]
    intro hlt
    linarith
  · rw [decide_eq_false hd, if_neg (by simp)]
    intro hgt
    push_neg at hd
    linarith

lemma gdLoop_top_undershoot (read : ℚ → ℚ) (central tol : ℚ) (down : Bool) (step : ℚ)
    (fuel : ℕ) (amp gain : ℚ) (s' : List (ℚ × ℚ)) (g' a' : ℚ)
    (h : gdLoop read central tol down step fuel amp gain [] = .exited s' g' a')
    (hg : 0 < g') (hlen : 1 < s'.length) :
    ∃ s ∈ s', s.2 < central - tol := by
  obtain ⟨H1, H2, H3, H4⟩ := gdLoop_exited_inv read central tol down step fuel amp gain
    [] s' g' a' h (by simp) (by simp) (by simp)
  have hcond : condProp down central tol a' := by
    rcases H4 with h4 | h4
    · exact h4
    · exact absurd h4 (not_le.mpr hg)
  cases down with
  | false =>
    simp only [condProp, if_false, ite_false, Bool.false_eq_true] at hcond H2
    have hne : s'.dropLast ≠ [] := by
      have hdl := List.length_dropLast s'
      intro hnil
      rw [hnil] at hdl
      simp at hdl
      omega
    obtain ⟨s, hs⟩ := List.exists_mem_of_ne_nil s'.dropLast hne
    have hmem : s ∈ s' := List.dropLast_subset s' hs
    have hnc := H2 s hs
    have hnt := H1 s hmem
    push_neg at hnc
    refine ⟨s, hmem, ?_⟩
    rcases lt_or_le s.2 (central - tol) with hlt | hge
    · exact hlt
    · exact absurd (abs_le.mpr ⟨by linarith, by linarith⟩) hnt
  | true =>
    simp only [condProp, if_true, ite_true] at hcond
    have hne : s' ≠ [] := by
      intro h0
      rw [h0] at hlen
      simp at hlen
    have hsl2 : (s'.getLast hne).2 = a' := H3 _ (List.getLast?_eq_getLast s' hne)
    exact ⟨s'.getLast hne, List.getLast_mem hne, by rw [hsl2]; exact hcond⟩

lemma gainDiscover_ok_pos (read : ℚ → ℚ) (central tol : ℚ) :
    ∀ (fuel : ℕ) (amp g0 step g : ℚ),
      gainDiscover read central tol fuel amp g0 step = .ok g → 0 < g := by
  intro fuel
  induction fuel with
  | zero => intro amp g0 step g h; simp [gainDiscover] at h
  | succ n ih =>
    intro amp g0 step g h
    simp only [gainDiscover] at h
    split at h
    · next gl heq =>
      simp only [CalibResult.ok.injEq] at h
      rw [← h]
      exact gdLoop_success_pos read central tol _ _ (n + 1) amp g0 [] gl heq
    · simp at h
    · next samples gain lastAmp heq =>
      split at h
      · simp at h
      · next anchor hanchor =>
        exact ih anchor.2 anchor.1 _ g h

lemma gainDiscover_no_thrown (read : ℚ → ℚ) (central tol : ℚ) (htol : 0 ≤ tol) :
    ∀ (fuel : ℕ) (amp g0 step : ℚ), 0 < g0 →
      gainDiscover read central tol fuel amp g0 step ≠ .thrown := by
  intro fuel
  induction fuel with
  | zero => intro amp g0 step h0; simp [gainDiscover]
  | succ n ih =>
    intro amp g0 step h0 hthrown
    simp only [gainDiscover] at hthrown
    have hentry : ¬(condProp (decide (amp > central)) central tol amp ∨ g0 ≤ 0) :=
      not_or.mpr ⟨entry_guard_false central tol amp htol, not_le.mpr h0⟩
    split at hthrown
    · simp at hthrown
    · simp at hthrown
    · next samples gain lastAmp heq =>
      have hprog : 0 < samples.length := by
        have hp := gdLoop_exited_progress read central tol (decide (amp > central))
          (if decide (amp > central) then step * (-1) else step) (n + 1) amp g0 [] samples
          gain lastAmp hentry heq
        simpa using hp
      split at hthrown
      · next hanchor =>
        by_cases hgate :
            ((if lastAmp > central then samples.reverse else samples).length > 1 ∧ gain > 0)
        · rw [if_pos hgate] at hanchor
          have hforall := List.find?_eq_none.mp hanchor
          have hlen2 : 1 < samples.length := by
            rcases hgate with ⟨hl, _⟩
            by_cases hrev : lastAmp > central
            · rw [if_pos hrev] at hl; simpa using hl
            · rw [if_neg hrev] at hl; exact hl
          obtain ⟨s, hmem, hlt⟩ := gdLoop_top_undershoot read central tol
            (decide (amp > central)) (if decide (amp > central) then step * (-1) else step)
            (n + 1) amp g0 samples gain lastAmp heq hgate.2 hlen2
          have hmem2 : s ∈ (if lastAmp > central then samples.reverse else samples).reverse := by
            by_cases hrev : lastAmp > central
            · rw [if_pos hrev]; simpa using hmem
            · rw [if_neg hrev]; simpa using hmem
          have hcontra := hforall s hmem2
          simp only [decide_eq_true_eq] at hcontra
          exact hcontra hlt
        · rw [if_neg hgate] at hanchor
          have hnil : (if lastAmp > central then samples.reverse else samples) = [] := by
            cases hl : (if lastAmp > central then samples.reverse else samples) with
            | nil => rfl
            | cons y t => rw [hl] at hanchor; simp at hanchor
          by_cases hrev : lastAmp > central
          · rw [if_pos hrev] at hnil
            have : samples = [] := by simpa using hnil
            rw [this] at hprog
            simp at hprog
          · rw [if_neg hrev] at hnil
            rw [hnil] at hprog
            simp at hprog
      · next anchor hanchor =>
        have hmem : anchor ∈ samples := by
          by_cases hgate :
              ((if lastAmp > central then samples.reverse else samples).length > 1 ∧ gain > 0)
          · rw [if_pos hgate] at hanchor
            have hm := List.mem_of_find?_eq_some hanchor
            by_cases hrev : lastAmp > central
            · rw [if_pos hrev] at hm; simpa using hm
            · rw [if_neg hrev] at hm; simpa using hm
          · rw [if_neg hgate] at hanchor
            have hm : anchor ∈ (if lastAmp > central then samples.reverse else samples) := by
              cases hl : (if lastAmp > central then samples.reverse else samples) with
              | nil => rw [hl] at hanchor; simp at hanchor
              | cons y t =>
                rw [hl] at hanchor
                simp only [List.head?_cons, Option.some.injEq] at hanchor
                rw [← hanchor]
                exact List.mem_cons_self y t
            by_cases hrev : lastAmp > central
            · rw [if_pos hrev] at hm; simpa using hm
            · rw [if_neg hrev] at hm; exact hm
        have hpos : 0 < anchor.1 :=
          gdLoop_exited_samples_pos read central tol (decide (amp > central))
            (if decide (amp > central) then step * (-1) else step) (n + 1) amp g0 [] samples
            gain lastAmp heq (by simp) anchor hmem
        exact ih anchor.2 anchor.1 _ hpos hthrown

lemma trackCaptureList_timeout (cfg : ConfigObj) :
    ∀ tracks, trackCaptureList cfg tracks = .timeout →
      ∀ t ∈ tracks, (trackValidator t cfg).result = false := by
  intro tracks
  induction tracks with
  | nil => intro _ t ht; simp at ht
  | cons t0 rest ih =>
    intro h t ht
    simp only [trackCaptureList] at h
    by_cases hth : (trackValidator t0 cfg).thrown
    · simp [hth] at h
    · simp only [Bool.not_eq_true] at hth
      rw [hth] at h
      simp only [Bool.false_eq_true, if_false, ite_false] at h
      by_cases hr : (trackValidator t0 cfg).result
      · simp [hr] at h
      · simp only [Bool.not_eq_true] at hr
        rw [hr] at h
        simp only [Bool.false_eq_true, if_false, ite_false] at h
        rcases List.mem_cons.mp ht with heq | hmem
        · rw [heq]; exact hr
        · exact ih h t hmem

/-! ### Claim theorems -/

/-- C1.  The claim states that with `amplitudeValidation = false` the
validator accepts every track that passes the percentage gate regardless of
its median amplitude.  The code violates it: on line 288 `&&` binds tighter
than `||`, so the `media.amplitude > maxAmplitude` rejection runs even when
`amplitudeValidation` is false.  This theorem evaluates the code at a
failing input: a track that passes the percentage gate, with
`amplitudeValidation = false` and median amplitude `-10 > maxAmplitude = -20`,
is rejected. -/
theorem trackValidator_rejects_despite_disabled_amplitude_validation :
    validaPorcentagemAcionamentos [3000, 3000] cfgNoAmpValidation = true ∧
    cfgNoAmpValidation.amplitudeValidation = false ∧
    trackValidator ⟨[3000, 3000], [-10, -10]⟩ cfgNoAmpValidation = { result := false } := by
  have hp : validaPorcentagemAcionamentos [3000, 3000] cfgNoAmpValidation = true := by
    simp [validaPorcentagemAcionamentos, List.filter,
      show inRangeB cfgNoAmpValidation 3000 = true from by decide]
    norm_num [cfgNoAmpValidation, captureDefaults]
  refine ⟨hp, rfl, ?_⟩
  simp [trackValidator, hp, trackFilter, trackFilterAmp, calculaMediaFreqAmp, jsRound,
    jsLtOpt, jsGtOpt, List.insertionSort, List.orderedInsert, List.filter,
    show inRangeB cfgNoAmpValidation 3000 = true from by decide]
  norm_num [cfgNoAmpValidation, captureDefaults]

/-- C2.  The claim states that `calibrateMic` with default options and an
already-centred first reading succeeds immediately with the unmodified
gain, its parameter validation passing.  The code violates it:
`calibrateMic` always defaults the `calibrationTimeOut` key on its options
object, but `parameterCheckConfigs` has no entry for that key, so
`ParameterValidator.validate` rejects the options and `calibrateMic`
returns that failure before taking any reading -- for every response, every
first reading and every gain. -/
theorem calibrateMic_defaults_rejected_by_validator :
    ParameterValidator.validate (calibrationParams calibrationDefaults) =
      .fail "Parâmetro calibrationTimeOut não está configurado no objeto parameterCheckConfigs" ∧
    ∀ (read : ℚ → ℚ) (firstRead : Option ℚ) (gainValue : ℚ) (fuel : ℕ) (tol step : ℚ),
      calibrateMic calibrationDefaults read firstRead gainValue fuel tol step =
        .failure "Parâmetro calibrationTimeOut não está configurado no objeto parameterCheckConfigs" := by
  exact ⟨rfl, fun read firstRead gainValue fuel tol step =>
    calibrateMic_always_fails calibrationDefaults read firstRead gainValue fuel tol step⟩

/-- C6.  On every non-empty frequency list `calculaMediaFreqAmp` returns a
value whose mean is the arithmetic mean of the frequencies and whose median
is the amplitude array sorted ascending indexed at
`Math.round(length / 2) = (length + 1) / 2`; it throws (returns `none`)
exactly on an empty frequency list; on `freq = [10, 20, 30]`,
`amp = [-25, -22, -28]` it yields mean `20` and median `-22` (index
`round(3 / 2) = 2` of `[-28, -25, -22]`). -/
theorem calculaMediaFreqAmp_spec :
    (∀ (freq amp : List ℚ), freq ≠ [] →
      ∃ m, calculaMediaFreqAmp freq amp = some m ∧
        m.frequencia = freq.sum / (freq.length : ℚ) ∧
        ∃ sortedAmp : List ℚ,
          List.Perm sortedAmp amp ∧ sortedAmp.Sorted (· ≤ ·) ∧
          m.amplitude = sortedAmp.get? ((amp.length + 1) / 2)) ∧
    (∀ (freq amp : List ℚ), calculaMediaFreqAmp freq amp = none ↔ freq = []) ∧
    calculaMediaFreqAmp [10, 20, 30] [-25, -22, -28] =
      some { frequencia := 20, amplitude := some (-22) } ∧
    ((3 + 1) / 2 : ℕ) = 2 := by
  refine ⟨?_, calculaMediaFreqAmp_none_iff, ?_, rfl⟩
  · intro freq amp h
    obtain ⟨m, hm, hf, ha⟩ := calculaMediaFreqAmp_some freq amp h
    exact ⟨m, hm, hf, List.insertionSort (· ≤ ·) amp, List.perm_insertionSort _ amp,
      List.sorted_insertionSort _ amp, ha⟩
  · simp [calculaMediaFreqAmp, List.insertionSort, List.orderedInsert, jsRound, Media.mk.injEq]
    norm_num
    simp

/-- C8.  The percentage gate accepts exactly when the count of in-range
readings is at least `track.length * validTrackPercentage / 100`; with
`validTrackPercentage = 0` every non-empty track passes; a 100-reading
track passes with 70 in-range readings at the default 70 percent and is
rejected with 69. -/
theorem validaPorcentagemAcionamentos_spec :
    (∀ (track : List ℚ) (cfg : ConfigObj),
      validaPorcentagemAcionamentos track cfg = true ↔
        ((track.countP (fun f => inRangeB cfg f) : ℚ)) ≥
          (track.length : ℚ) * (cfg.validTrackPercentage / 100)) ∧
    (∀ (track : List ℚ) (cfg : ConfigObj), cfg.validTrackPercentage = 0 → track ≠ [] →
      validaPorcentagemAcionamentos track cfg = true) ∧
    validaPorcentagemAcionamentos track100with70 captureDefaults = true ∧
    validaPorcentagemAcionamentos track100with69 captureDefaults = false := by
  refine ⟨?_, ?_, ?_, ?_⟩
  · intro track cfg
    rw [validaPorcentagemAcionamentos, decide_eq_true_iff, List.countP_eq_length_filter]
  · intro track cfg hp _
    rw [validaPorcentagemAcionamentos, decide_eq_true_iff, hp]
    have : ((track.filter (fun f => inRangeB cfg f)).length : ℚ) ≥ 0 := Nat.cast_nonneg _
    calc ((track.filter (fun f => inRangeB cfg f)).length : ℚ) ≥ 0 := this
    _ = (track.length : ℚ) * (0 / 100) := by ring
  · simp [validaPorcentagemAcionamentos, track100with70, List.filter_append, List.filter_replicate,
      show inRangeB captureDefaults 3000 = true from by decide,
      show inRangeB captureDefaults 0 = false from by decide]
    norm_num [captureDefaults]
  · simp [validaPorcentagemAcionamentos, track100with69, List.filter_append, List.filter_replicate,
      show inRangeB captureDefaults 3000 = true from by decide,
      show inRangeB captureDefaults 0 = false from by decide]
    norm_num [captureDefaults]

/-- Witness for C8: a one-reading track passes under a zero percentage
gate. -/
theorem validaPorcentagemAcionamentos_spec_witness :
    validaPorcentagemAcionamentos [3000] cfgZeroPercentage = true :=
  validaPorcentagemAcionamentos_spec.2.1 [3000] cfgZeroPercentage rfl (by decide)

/-- Witness for C6: the mean clause evaluated on the spec's own example. -/
theorem calculaMediaFreqAmp_spec_witness :
    ∃ m, calculaMediaFreqAmp [10, 20, 30] [-25, -22, -28] = some m ∧
      m.frequencia = 20 := by
  obtain ⟨m, hm, hf, _⟩ := calculaMediaFreqAmp_spec.1 [10, 20, 30] [-25, -22, -28] (by simp)
  refine ⟨m, hm, ?_⟩
  rw [hf]
  norm_num

/-- C10.  When amplitude validation is on and the filtered track holds
exactly one in-range reading, the median index `Math.round(1 / 2) = 1` is
out of bounds for the one-element amplitude array, the median is
`undefined` (`none`), both amplitude-gate comparisons against it are false,
and the validator accepts the track. -/
theorem trackValidator_single_reading_accepted :
    ∀ (track : Track) (cfg : ConfigObj), cfg.amplitudeValidation = true →
      validaPorcentagemAcionamentos track.frequencia cfg = true →
      (track.frequencia.filter (fun v => inRangeB cfg v)).length = 1 →
      (trackValidator track cfg).result = true ∧
      (trackValidator track cfg).amplitudeMedia = none := by
  intro track cfg _ hPct hLen
  have hAmpLen : (trackFilter track cfg).amplitude.length = 1 := by
    simp [trackFilter, trackFilterAmp_length, hLen]
  have hFne : (trackFilter track cfg).frequencia ≠ [] := by
    intro h0
    have h1 : (trackFilter track cfg).frequencia.length = 1 := by
      simpa [trackFilter] using hLen
    rw [h0] at h1
    simp at h1
  obtain ⟨m, hm, _, hma⟩ := calculaMediaFreqAmp_some (trackFilter track cfg).frequencia
    (trackFilter track cfg).amplitude hFne
  have hMedia : m.amplitude = none := by
    rw [hma]
    apply List.get?_eq_none.mpr
    rw [List.length_insertionSort, hAmpLen]
  have hv : trackValidator track cfg =
      { result := true, frequencia := (trackFilter track cfg).frequencia,
        frequenciaMedia := some m.frequencia,
        amplitude := List.insertionSort (· ≤ ·) (trackFilter track cfg).amplitude,
        amplitudeMedia := m.amplitude } := by
    simp only [trackValidator, hPct, not_true, Bool.true_eq_false, if_false, ite_false,
      Bool.not_eq_true]
    rw [hm]
    simp [hMedia, jsLtOpt, jsGtOpt]
  rw [hv]
  exact ⟨rfl, hMedia⟩

/-- Witness for C10: a one-reading track at 3000 Hz with amplitude -100,
far below the default band, is accepted with an undefined median. -/
theorem trackValidator_single_reading_accepted_witness :
    (trackValidator ⟨[3000], [-100]⟩ captureDefaults).result = true ∧
    (trackValidator ⟨[3000], [-100]⟩ captureDefaults).amplitudeMedia = none := by
  apply trackValidator_single_reading_accepted ⟨[3000], [-100]⟩ captureDefaults rfl
  · simp [validaPorcentagemAcionamentos, List.filter,
      show inRangeB captureDefaults 3000 = true from by decide]
    norm_num [captureDefaults]
  · simp [List.filter, show inRangeB captureDefaults 3000 = true from by decide]

/-- C9.  The claim states that accepted validation results preserve the
index pairing between the returned frequency and amplitude sequences.  The
code violates it: `Array.prototype.sort` inside `calculaMediaFreqAmp`
mutates the filtered amplitude array in place, so the accepted result
carries the amplitudes sorted ascending.  Concretely, for the track
`freq = [3000, 3001]`, `amp = [-20, -30]` (amplitude -20 read together with
frequency 3000), the accepted result returns `amplitude = [-30, -20]`:
index 0 pairs 3000 with -30, which was read with 3001. -/
theorem trackValidator_returns_sorted_not_paired :
    (trackFilter ⟨[3000, 3001], [-20, -30]⟩ captureDefaults).amplitude = [-20, -30] ∧
    (trackValidator ⟨[3000, 3001], [-20, -30]⟩ captureDefaults).result = true ∧
    (trackValidator ⟨[3000, 3001], [-20, -30]⟩ captureDefaults).amplitude = [-30, -20] := by
  have h1 : inRangeB captureDefaults 3000 = true := by decide
  have h2 : inRangeB captureDefaults 3001 = true := by decide
  have hp : validaPorcentagemAcionamentos [3000, 3001] captureDefaults = true := by
    simp [validaPorcentagemAcionamentos, List.filter, h1, h2]
    norm_num [captureDefaults]
  refine ⟨by simp [trackFilter, trackFilterAmp, h1, h2], ?_, ?_⟩
  · simp [trackValidator, hp, trackFilter, trackFilterAmp, calculaMediaFreqAmp, jsRound,
      jsLtOpt, jsGtOpt, List.insertionSort, List.orderedInsert, List.filter, h1, h2]
    norm_num [captureDefaults]
  · simp [trackValidator, hp, trackFilter, trackFilterAmp, calculaMediaFreqAmp, jsRound,
      jsLtOpt, jsGtOpt, List.insertionSort, List.orderedInsert, List.filter, h1, h2]
    norm_num [captureDefaults]

/-- C9 amended.  The filter step does preserve pairing: on equal-length
tracks its outputs are the projections of the in-range entries of the
zipped (frequency, amplitude) pairs, in acquisition order.  But an accepted
validation result returns the amplitude sequence sorted ascending (the
median computation's in-place sort), so only the frequency sequence keeps
acquisition order. -/
theorem trackFilter_pairing_validator_sorts :
    (∀ (track : Track) (cfg : ConfigObj),
      track.frequencia.length = track.amplitude.length →
      (trackFilter track cfg).frequencia =
        ((track.frequencia.zip track.amplitude).filter (fun p => inRangeB cfg p.1)).map
          Prod.fst ∧
      (trackFilter track cfg).amplitude =
        ((track.frequencia.zip track.amplitude).filter (fun p => inRangeB cfg p.1)).map
          Prod.snd) ∧
    (∀ (track : Track) (cfg : ConfigObj), (trackValidator track cfg).result = true →
      (trackValidator track cfg).frequencia = (trackFilter track cfg).frequencia ∧
      (trackValidator track cfg).amplitude =
        List.insertionSort (· ≤ ·) (trackFilter track cfg).amplitude) := by
  constructor
  · intro track cfg h
    refine ⟨filter_eq_zip_filter_map_fst cfg track.frequencia track.amplitude h, ?_⟩
    exact trackFilterAmp_eq_zip cfg track.frequencia track.amplitude track.amplitude 0 rfl h
  · intro track cfg h
    by_cases hp : validaPorcentagemAcionamentos track.frequencia cfg
    · cases hm : calculaMediaFreqAmp (trackFilter track cfg).frequencia
          (trackFilter track cfg).amplitude with
      | none =>
        have hv : trackValidator track cfg = { result := false, thrown := true } := by
          simp only [trackValidator, hp, not_true, if_false, ite_false, Bool.not_eq_true]
          rw [hm]
        rw [hv] at h
        simp at h
      | some media =>
        by_cases hg : ((cfg.amplitudeValidation && jsLtOpt media.amplitude cfg.minAmplitude)
            || jsGtOpt media.amplitude cfg.maxAmplitude)
        · have hv : trackValidator track cfg = { result := false } := by
            simp only [trackValidator, hp, not_true, if_false, ite_false, Bool.not_eq_true]
            rw [hm]
            simp [hg]
          rw [hv] at h
          simp at h
        · have hv : trackValidator track cfg =
              { result := true, frequencia := (trackFilter track cfg).frequencia,
                frequenciaMedia := some media.frequencia,
                amplitude := List.insertionSort (· ≤ ·) (trackFilter track cfg).amplitude,
                amplitudeMedia := media.amplitude } := by
            simp only [trackValidator, hp, not_true, if_false, ite_false, Bool.not_eq_true]
            rw [hm]
            simp only [Bool.not_eq_true] at hg
            simp [hg]
          rw [hv]
          exact ⟨rfl, rfl⟩
    · simp [trackValidator, hp] at h

/-- Witness for C9 amended: the pairing clause applied to a concrete
equal-length track. -/
theorem trackFilter_pairing_validator_sorts_witness :
    (trackFilter ⟨[3000, 100, 3001], [-25, -99, -26]⟩ captureDefaults).frequencia =
      (([(3000 : ℚ), 100, 3001].zip [(-25 : ℚ), -99, -26]).filter
        (fun p => inRangeB captureDefaults p.1)).map Prod.fst ∧
    (trackFilter ⟨[3000, 100, 3001], [-25, -99, -26]⟩ captureDefaults).amplitude =
      (([(3000 : ℚ), 100, 3001].zip [(-25 : ℚ), -99, -26]).filter
        (fun p => inRangeB captureDefaults p.1)).map Prod.snd :=
  trackFilter_pairing_validator_sorts.1 ⟨[3000, 100, 3001], [-25, -99, -26]⟩
    captureDefaults rfl

/-- C7.  The claim states that `pitch` returns a non-finite/invalid value
whenever fewer than 2 maxima are found.  The code violates it at exactly one
maximum: the frame `[1, 0, 1, 0, 0]` produces the single maximum lag 2
(`corr = [2, 0, 1, 0, 0]`, one second-difference sign change at `l = 3`),
`maximaMean = 2 / 1 = 2`, and `pitch` returns the finite value
`48000 / 2 = 24000`. -/
theorem pitch_one_maximum_returns_finite :
    (localMaxima [1, 0, 1, 0, 0]).length = 1 ∧
    pitch 48000 [1, 0, 1, 0, 0] = some 24000 := by
  refine ⟨by simp [localMaxima_one_zero_one], ?_⟩
  simp [pitch, localMaxima_one_zero_one, sumDiffs]
  norm_num

/-- C7 amended.  `pitch` collects up to 10 local-maxima lags by the
second-difference sign-change test and returns `sampleRate` divided by
`(localMaxima[0] + Σ consecutive differences) / maximaCount`, which
telescopes to `lastLag / maximaCount`; the returned frequency is invalid
(`NaN`, modelled `none`) exactly when zero maxima are found, while with at
least one maximum -- including exactly one -- the result is the finite
value `sampleRate * maximaCount / lastLag`. -/
theorem pitch_collects_maxima_spec :
    (∀ (sampleRate : ℚ) (x : List ℚ),
      pitch sampleRate x = none ↔ localMaxima x = []) ∧
    (∀ x : List ℚ, (localMaxima x).length ≤ 10) ∧
    (∀ (sampleRate : ℚ) (x : List ℚ) (lag : ℕ),
      (localMaxima x).getLast? = some lag →
      pitch sampleRate x =
        some (sampleRate * ((localMaxima x).length : ℚ) / (lag : ℚ))) := by
  refine ⟨?_, ?_, ?_⟩
  · intro sampleRate x
    cases hm : localMaxima x with
    | nil => simp [pitch, hm]
    | cons a rest => simp [pitch, hm]
  · intro x
    rw [localMaxima, List.length_take]
    omega
  · intro sr x lag hlast
    cases hm : localMaxima x with
    | nil => rw [hm] at hlast; simp at hlast
    | cons a rest =>
      rw [hm] at hlast
      have hne : ((a :: rest).map (fun n : ℕ => (n : ℚ))) ≠ [] := by simp
      have hmap_last : ((a :: rest).map (fun n : ℕ => (n : ℚ))).getLast? =
          some ((lag : ℚ)) := by
        rw [List.getLast?_map, hlast]
        rfl
      have hgl : ((a :: rest).map (fun n : ℕ => (n : ℚ))).getLast hne = (lag : ℚ) := by
        rw [List.getLast?_eq_getLast _ hne] at hmap_last
        exact Option.some.inj hmap_last
      have htel := headI_add_sumDiffs ((a :: rest).map (fun n : ℕ => (n : ℚ))) hne
      rw [hgl] at htel
      simp only [List.map_cons, List.headI] at htel
      simp only [pitch, hm, List.map_cons]
      rw [htel, div_div_eq_mul_div]

/-- Witness for C7 amended: the closed-form clause evaluated at the
one-maximum frame. -/
theorem pitch_collects_maxima_spec_witness :
    pitch 48000 [1, 0, 1, 0, 0] =
      some (48000 * ((localMaxima [1, 0, 1, 0, 0]).length : ℚ) / ((2 : ℕ) : ℚ)) :=
  pitch_collects_maxima_spec.2.2 48000 [1, 0, 1, 0, 0] 2
    (by simp [localMaxima_one_zero_one])

/-- C4.  The claim states that every `capture` result contains frequency
values with their mean and amplitude values with their mean on all exit
paths.  The code violates it: the failure objects (lines 454, 458) carry
only `success` and `msg`, and no path carries a `diagnosticTracks` field
(the last track lives in the `lastRead` static and is only logged).  A run
whose timeout fires with no buffered track returns a bare failure. -/
theorem capture_failure_lacks_values_and_means :
    capture captureDefaults [] = .failure "Nenhuma faixa detectada na frequência esperada" ∧
    hasFreqAmpMeans (capture captureDefaults []) = false := by
  constructor
  · rfl
  · rfl

/-- C4 amended.  On the paths it completes, `capture` returns a structured
result value: an accepted track yields a success object carrying the
filtered values and their aggregates; a timeout yields a failure object
carrying only the message, which is the amplitude-out-of-range message
exactly when some buffered track passed the percentage gate (every such
track was nevertheless rejected, i.e. failed the amplitude check), and the
no-track message when none did.  But `capture` is not exception-free: with
a validator-accepted `validTrackPercentage = 0` and a buffered track with
no in-range reading, the percentage gate passes vacuously, the filtered
arrays are empty, and the `TypeError` from `[].reduce` with no initial
value in `calculaMediaFreqAmp` propagates out of `capture` -- shown here
concretely on the track `[0]`. -/
theorem capture_amended_spec :
    (∀ (cfg : ConfigObj) (tracks : List Track),
      ParameterValidator.validate (captureParams cfg) = .ok →
      (∀ v, trackCaptureList cfg tracks = .accepted v →
        capture cfg tracks = .success "Faixa detectada dentro dos valores esperados"
          v.frequencia v.frequenciaMedia v.amplitude v.amplitudeMedia) ∧
      (trackCaptureList cfg tracks = .thrown → capture cfg tracks = .thrown) ∧
      (trackCaptureList cfg tracks = .timeout →
        capture cfg tracks =
          .failure (if tracks.any (fun t => validaPorcentagemAcionamentos t.frequencia cfg)
            then "Foi detectada uma faixa na frequência esperada, mas fora da amplitude desejada"
            else "Nenhuma faixa detectada na frequência esperada") ∧
        ((tracks.any (fun t => validaPorcentagemAcionamentos t.frequencia cfg)) = true →
          ∃ t ∈ tracks, validaPorcentagemAcionamentos t.frequencia cfg = true ∧
            (trackValidator t cfg).result = false) ∧
        ((tracks.any (fun t => validaPorcentagemAcionamentos t.frequencia cfg)) = false →
          ∀ t ∈ tracks, validaPorcentagemAcionamentos t.frequencia cfg = false))) ∧
    capture cfgZeroPercentage [⟨[0], [-10]⟩] = .thrown := by
  constructor
  · intro cfg tracks hv
    refine ⟨?_, ?_, ?_⟩
    · intro v hacc
      simp [capture, hv, hacc]
    · intro hthr
      simp [capture, hv, hthr]
    · intro htimeout
      refine ⟨?_, ?_, ?_⟩
      · by_cases hany : tracks.any (fun t => validaPorcentagemAcionamentos t.frequencia cfg)
        · simp [capture, hv, htimeout, hany]
        · simp only [Bool.not_eq_true] at hany
          simp [capture, hv, htimeout, hany]
      · intro hany
        obtain ⟨t, ht, hpass⟩ := List.any_eq_true.mp hany
        exact ⟨t, ht, hpass, trackCaptureList_timeout cfg tracks htimeout t ht⟩
      · intro hany t ht
        have h := List.any_eq_false.mp hany t ht
        simpa using h
  · have h0 : inRangeB cfgZeroPercentage 0 = false := by decide
    have hgate : validaPorcentagemAcionamentos [0] cfgZeroPercentage = true := by
      simp [validaPorcentagemAcionamentos, List.filter, h0]
      norm_num [cfgZeroPercentage, captureDefaults]
    have htv : trackValidator ⟨[0], [-10]⟩ cfgZeroPercentage =
        { result := false, thrown := true } := by
      simp [trackValidator, hgate, trackFilter, trackFilterAmp, calculaMediaFreqAmp,
        List.filter, h0]
    have hval : ParameterValidator.validate (captureParams cfgZeroPercentage) = .ok := by
      decide
    simp [capture, hval, trackCaptureList, htv]

/-- Witness for C4 amended: the timeout path with no buffered track yields
the bare no-track failure. -/
theorem capture_amended_spec_witness :
    capture captureDefaults [] = .failure "Nenhuma faixa detectada na frequência esperada" := by
  have h := (capture_amended_spec.1 captureDefaults [] (by decide)).2.2 rfl
  simpa using h.1

/-- C3.  The claim states that no iteration of the gain search ever sets
the shared gain parameter (`GainNode.gain.value`, the `gain` component of
the loop state) to a value ≤ 0.  The code violates it: in the descending
phase the final `gain += gainStep` can drive the gain to 0 or below, after
which the loop guard fails and the loop exits.  Concretely, the loop
`gainDiscover` starts for a constant too-loud response (-10 dB against the
default central -25 dB, tolerance 2) from gain 1 with step 1 (flipped to
-1) reads once at gain 1 and then writes gain `1 + (-1) = 0` to the shared
parameter before exiting. -/
theorem gdLoop_writes_zero_gain :
    gdLoop (constRead (-10)) (-25) 2 true (-1) 5 (-10) 1 [] =
      .exited [(1, -10)] 0 (-10) := by
  norm_num [gdLoop, condProp, constRead]

/-- C3 amended.  Every reading of the gain search happens at a strictly
positive gain, every recorded `(gain, amplitude)` sample carries a positive
gain, and a successful search returns a positive gain; but the final step
update of an exhausted descending phase may transiently set the shared gain
parameter to a value ≤ 0 before the loop exits (see the counterexample),
after which the next refinement round resets it to a recorded positive
anchor. -/
theorem gainDiscover_positive_gain_spec :
    (∀ (read : ℚ → ℚ) (central tol : ℚ) (down : Bool) (step : ℚ) (fuel : ℕ)
      (amp gain : ℚ) (samples : List (ℚ × ℚ)) (g : ℚ),
      gdLoop read central tol down step fuel amp gain samples = .success g → 0 < g) ∧
    (∀ (read : ℚ → ℚ) (central tol : ℚ) (down : Bool) (step : ℚ) (fuel : ℕ)
      (amp gain : ℚ) (samples s' : List (ℚ × ℚ)) (g' a' : ℚ),
      gdLoop read central tol down step fuel amp gain samples = .exited s' g' a' →
      (∀ s ∈ samples, 0 < s.1) → ∀ s ∈ s', 0 < s.1) ∧
    (∀ (read : ℚ → ℚ) (central tol : ℚ) (fuel : ℕ) (amp g0 step g : ℚ),
      gainDiscover read central tol fuel amp g0 step = .ok g → 0 < g) := by
  refine ⟨?_, ?_, ?_⟩
  · intro read central tol down step fuel amp gain samples g h
    exact gdLoop_success_pos read central tol down step fuel amp gain samples g h
  · intro read central tol down step fuel amp gain samples s' g' a' h hs
    exact gdLoop_exited_samples_pos read central tol down step fuel amp gain samples
      s' g' a' h hs
  · intro read central tol fuel amp g0 step g h
    exact gainDiscover_ok_pos read central tol fuel amp g0 step g h

/-- Witness for C3 amended: a search that succeeds at once (constant
response already centred at -25) returns the positive gain 1. -/
theorem gainDiscover_positive_gain_spec_witness :
    gainDiscover (constRead (-25)) (-25) 2 3 (-15) 1 1 = .ok 1 ∧ (0 : ℚ) < 1 := by
  have heval : gainDiscover (constRead (-25)) (-25) 2 3 (-15) 1 1 = .ok 1 := by
    norm_num [gainDiscover, gdLoop, condProp, constRead]
  exact ⟨heval,
    gainDiscover_positive_gain_spec.2.2 (constRead (-25)) (-25) 2 3 (-15) 1 1 1 heval⟩

/-- C5.  Calibration never propagates an exception.  `gainDiscover` never
evaluates the `undefined[1]` access (modelled `.thrown`) for any response
and any fuel, given a nonnegative tolerance and a positive starting gain:
the direction flip makes the loop guard pass at entry, so at least one
sample is always recorded, and whenever the `findLast` refinement branch
runs (more than one sample, positive exit gain) an undershooting sample
exists -- also in runs whose stepping phase exits with no undershooting
sample recorded, since those exit with gain ≤ 0 or a single sample and
take the `samples[0]` branch on a non-empty list.  `calibrateMic` itself
returns a structured failure on every run (its validation failure, see the
C2 theorem) and never throws. -/
theorem calibration_never_throws :
    (∀ (read : ℚ → ℚ) (central tol : ℚ) (fuel : ℕ) (amp g0 step : ℚ),
      0 ≤ tol → 0 < g0 →
      gainDiscover read central tol fuel amp g0 step ≠ .thrown) ∧
    (∀ (o : CalibrationOptions) (read : ℚ → ℚ) (firstRead : Option ℚ)
      (gainValue : ℚ) (fuel : ℕ) (tol step : ℚ),
      calibrateMic o read firstRead gainValue fuel tol step ≠ .thrown) := by
  constructor
  · intro read central tol fuel amp g0 step htol h0
    exact gainDiscover_no_thrown read central tol htol fuel amp g0 step h0
  · intro o read firstRead gainValue fuel tol step
    rw [calibrateMic_always_fails]
    simp

/-- Witness for C5: a concrete non-converging descending run (constant
too-loud response) does not throw. -/
theorem calibration_never_throws_witness :
    gainDiscover (constRead (-10)) (-25) 2 2 (-10) 1 1 ≠ .thrown :=
  calibration_never_throws.1 (constRead (-10)) (-25) 2 2 (-10) 1 1 (by norm_num)
    (by norm_num)

end BeepListener
